import Mathlib

/-!
Shallow embedding of the SongSnaps order-management service
(`src/backend/server.py`) and proofs of its specification's testable
properties.

The MongoDB collection `orders_collection` is modelled as a list of
documents in insertion (natural) order; each document carries the
storage-internal identifier `_id` (field `mongoId`) next to the order
payload.  The clock (`datetime.now()`) and the randomness source
(`uuid.uuid4()`) are passed as explicit parameters.  The store
operations used by the service (`insert_one`, `find_one`,
`update_one`, `count_documents`, `find ... sort ... limit`) follow
MongoDB's documented semantics; in particular `limit(0)` means
"no limit".
-/

/-- One entry of the static plan catalog `PLAN_DETAILS`. -/
structure PlanInfo where
  name : String
  price : String
  description : String
  delivery : String
  features : List String
deriving DecidableEq

/-- The plan catalog: a dict keyed by plan code, from `server.py` lines 49-71. -/
def PLAN_DETAILS (plan : String) : Option PlanInfo :=
  if plan = "snap" then
    some ⟨"Snap", "$3.99", "1 full-length custom song with cover art", "2 hours",
      ["1 custom song", "Simple cover art", "2-hour delivery", "No edits"]⟩
  else if plan = "snappack" then
    some ⟨"Snap Pack", "$9.99", "3 songs over 7 days", "48 hours each",
      ["3 custom songs", "Different moods/vibes", "Cover art for each", "48-hour delivery"]⟩
  else if plan = "creator" then
    some ⟨"Creator Pack", "$24.99/mo", "Up to 10 songs per month with extras", "Priority",
      ["Up to 10 songs/month", "AI stems", "Instrumentals", "TikTok clips", "Priority delivery"]⟩
  else none

/-- The order document built by `generate_order` (and mutated by `fulfill_order`).
`timestamp` and `fulfilledAt` are instants of the model clock.
`fulfilledAt = none` models the absence of the `fulfilledAt` key. -/
structure Order where
  orderId : String
  plan : String
  planName : String
  price : String
  description : String
  delivery : String
  features : List String
  timestamp : Nat
  status : String
  whatsappNumber : String
  fulfilled : Bool
  fulfilledAt : Option Nat
deriving DecidableEq

/-- A stored document: the storage-internal `_id` plus the order payload. -/
structure Doc where
  mongoId : Nat
  order : Order
deriving DecidableEq

/-- An HTTP error response (`HTTPException(status_code, detail)`). -/
structure HTTPException where
  status : Nat
  detail : String
deriving DecidableEq

/-- The pydantic `OrderResponse` model returned by `generate_order`. -/
structure OrderResponse where
  orderId : String
  plan : String
  price : String
  timestamp : Nat
  whatsappNumber : String
deriving DecidableEq

/-- The JSON body returned by `fulfill_order` on success. -/
structure FulfillResponse where
  message : String
  orderId : String
deriving DecidableEq

/-- The JSON body returned by `get_orders`. -/
structure OrdersResponse where
  orders : List Order
  count : Nat
deriving DecidableEq

/-- The `planBreakdown` object of the stats response. -/
structure PlanBreakdown where
  snap : Nat
  snappack : Nat
  creator : Nat
deriving DecidableEq

/-- The JSON body returned by `get_stats`. -/
structure Stats where
  totalOrders : Nat
  fulfilledOrders : Nat
  pendingOrders : Nat
  planBreakdown : PlanBreakdown
deriving DecidableEq

/-- Lowercase hexadecimal digit, as produced by Python's `hex` formatting. -/
def hexChar (d : Nat) : Char :=
  if d < 10 then Char.ofNat (48 + d) else Char.ofNat (87 + d)

/-- `uuid.uuid4().hex`: the 32 lowercase hex digits of a 128-bit value `u`,
most significant digit first, zero padded. -/
def uuidHex (u : Nat) : List Char :=
  (List.range 32).map (fun i => hexChar (u / 16 ^ (31 - i) % 16))

/-- The order identifier minted at `server.py` line 103:
`f"SS-{uuid.uuid4().hex[:8].upper()}"`. -/
def orderIdOf (u : Nat) : String :=
  "SS-" ++ String.mk (((uuidHex u).take 8).map Char.toUpper)

/-- The character class `[0-9A-F]`. -/
def isUpperHexDigit (c : Char) : Bool :=
  (decide ('0' ≤ c) && decide (c ≤ '9')) || (decide ('A' ≤ c) && decide (c ≤ 'F'))

/-- A string matches the pattern `SS-[0-9A-F]{8}`. -/
def matchesOrderIdPattern (s : String) : Prop :=
  ∃ t : List Char, s.data = 'S' :: 'S' :: '-' :: t ∧ t.length = 8 ∧
    ∀ c ∈ t, isUpperHexDigit c = true

/-- Result object of the store's `insert_one`. -/
structure InsertOneResult where
  inserted_id : Option Nat
deriving DecidableEq

/-- Store contract: `insert_one` appends the document and acknowledges
with the fresh storage-internal `_id`. -/
def insert_one (store : List Doc) (o : Order) : InsertOneResult × List Doc :=
  (⟨some store.length⟩, store ++ [⟨store.length, o⟩])

/-- Store contract: `find_one({"orderId": id})` returns the first document
in natural order whose `orderId` field equals `id`. -/
def find_one (store : List Doc) (id : String) : Option Doc :=
  store.find? (fun d => d.order.orderId == id)

/-- Store contract: the `matched_count` reported by
`update_one({"orderId": id}, ...)`. -/
def matchedCount (store : List Doc) (id : String) : Nat :=
  if store.any (fun d => d.order.orderId == id) then 1 else 0

/-- Store contract: `update_one` applies `f` to the first document
satisfying `p` and leaves every other document untouched. -/
def updateFirst (p : Doc → Bool) (f : Doc → Doc) : List Doc → List Doc
  | [] => []
  | d :: ds => if p d then f d :: ds else d :: updateFirst p f ds

/-- The `$set` document of `fulfill_order`: set `fulfilled` to true and
`fulfilledAt` to the current time, leaving all other fields alone. -/
def setFulfilled (now : Nat) (d : Doc) : Doc :=
  { d with order := { d.order with fulfilled := true, fulfilledAt := some now } }

/-- Store contract: cursor `limit(n)`; MongoDB treats `limit(0)` as
"no limit". -/
def mongoLimit (n : Nat) (xs : List α) : List α :=
  if n = 0 then xs else xs.take n

/-- The sort key relation of `sort("timestamp", -1)`: descending timestamps. -/
def tsDesc (a b : Doc) : Prop :=
  b.order.timestamp ≤ a.order.timestamp

instance : DecidableRel tsDesc :=
  fun a b => inferInstanceAs (Decidable (b.order.timestamp ≤ a.order.timestamp))

instance : IsTotal Doc tsDesc :=
  ⟨fun a b => Nat.le_total b.order.timestamp a.order.timestamp⟩

instance : IsTrans Doc tsDesc :=
  ⟨fun _ _ _ hab hbc => Nat.le_trans hbc hab⟩

/-- Store contract: `find(query).sort("timestamp", -1)`. -/
def sortTimestampDesc (store : List Doc) : List Doc :=
  List.insertionSort tsDesc store

/-- Store contract: `count_documents(query)`. -/
def count_documents (store : List Doc) (p : Doc → Bool) : Nat :=
  store.countP p

/-- `POST /api/generate-order` (`server.py` lines 92-140): validate the plan,
mint `SS-` + 8 uppercase hex characters from the fresh uuid `u`, build the
order document, insert it, and project the response. -/
def generate_order (store : List Doc) (plan : String) (u : Nat) (now : Nat) :
    Except HTTPException OrderResponse × List Doc :=
  match PLAN_DETAILS plan with
  | none => (Except.error ⟨400, "Invalid plan type"⟩, store)
  | some info =>
      let order_id := orderIdOf u
      let order_doc : Order :=
        ⟨order_id, plan, info.name, info.price, info.description, info.delivery,
          info.features, now, "payment_confirmed", "+1234567890", false, none⟩
      let res := insert_one store order_doc
      if res.1.inserted_id.isNone then
        (Except.error ⟨500, "Failed to create order"⟩, res.2)
      else
        (Except.ok ⟨order_id, plan, info.price, now, "+1234567890"⟩, res.2)

/-- `GET /api/order/{order_id}` (`server.py` lines 142-160): find the document,
404 when absent, otherwise return it with the internal `_id` popped. -/
def get_order (store : List Doc) (id : String) : Except HTTPException Order :=
  match find_one store id with
  | none => Except.error ⟨404, "Order not found"⟩
  | some d => Except.ok d.order

/-- `PUT /api/order/{order_id}/fulfill` (`server.py` lines 162-187): issue the
`$set` update, then 404 exactly when the reported `matched_count` is zero. -/
def fulfill_order (store : List Doc) (id : String) (now : Nat) :
    Except HTTPException FulfillResponse × List Doc :=
  let matched := matchedCount store id
  let newStore := updateFirst (fun d => d.order.orderId == id) (setFulfilled now) store
  if matched = 0 then (Except.error ⟨404, "Order not found"⟩, newStore)
  else (Except.ok ⟨"Order fulfilled successfully", id⟩, newStore)

/-- The query document built by `get_orders`: an absent filter contributes
no clause, a present one an equality clause, combined conjunctively. -/
def matchesQuery (fulfilled : Option Bool) (plan : Option String) (d : Doc) : Bool :=
  (match fulfilled with
   | none => true
   | some b => d.order.fulfilled == b) &&
  (match plan with
   | none => true
   | some s => d.order.plan == s)

/-- `GET /api/orders` (`server.py` lines 189-209): filter, sort by timestamp
descending, apply the limit, pop `_id` from each result. -/
def get_orders (store : List Doc) (limit : Nat) (fulfilled : Option Bool)
    (plan : Option String) : OrdersResponse :=
  let docs := mongoLimit limit (sortTimestampDesc (store.filter (matchesQuery fulfilled plan)))
  let orders := docs.map (fun d => d.order)
  ⟨orders, orders.length⟩

/-- `get_orders` with the Python default arguments
(`limit: int = 50, fulfilled = None, plan = None`). -/
def get_ordersDefault (store : List Doc) : OrdersResponse :=
  get_orders store 50 none none

/-- `GET /api/stats` (`server.py` lines 211-237): six independent counts. -/
def get_stats (store : List Doc) : Stats :=
  let total := count_documents store (fun _ => true)
  let fulfilled := count_documents store (fun d => d.order.fulfilled == true)
  let pending := total - fulfilled
  let snap := count_documents store (fun d => d.order.plan == "snap")
  let snappack := count_documents store (fun d => d.order.plan == "snappack")
  let creator := count_documents store (fun d => d.order.plan == "creator")
  ⟨total, fulfilled, pending, ⟨snap, snappack, creator⟩⟩

/-- The fields of an order other than `fulfilled` and `fulfilledAt` agree. -/
def sameCore (a b : Order) : Prop :=
  a.orderId = b.orderId ∧ a.plan = b.plan ∧ a.planName = b.planName ∧ a.price = b.price ∧
  a.description = b.description ∧ a.delivery = b.delivery ∧ a.features = b.features ∧
  a.timestamp = b.timestamp ∧ a.status = b.status ∧ a.whatsappNumber = b.whatsappNumber

/-- A sample stored order used to instantiate theorems at concrete inputs. -/
def sampleOrder : Order :=
  ⟨"SS-0A1B2C3D", "snap", "Snap", "$3.99", "1 full-length custom song with cover art",
    "2 hours", ["1 custom song", "Simple cover art", "2-hour delivery", "No edits"],
    7, "payment_confirmed", "+1234567890", false, none⟩

/-- A sample stored document wrapping `sampleOrder`. -/
def sampleDoc : Doc := ⟨0, sampleOrder⟩

/-- A sample three-document store with distinct timestamps. -/
def sampleStore3 : List Doc :=
  [⟨0, sampleOrder⟩, ⟨1, { sampleOrder with timestamp := 11 }⟩,
    ⟨2, { sampleOrder with timestamp := 5 }⟩]

/-- A sample two-document store whose second order is fulfilled. -/
def sampleStore2 : List Doc :=
  [⟨0, sampleOrder⟩, ⟨1, { sampleOrder with fulfilled := true }⟩]

theorem hexChar_toUpper_isUpperHex : ∀ d < 16, isUpperHexDigit (Char.toUpper (hexChar d)) = true := by
  decide

theorem data_SS_append (l : List Char) : ("SS-" ++ String.mk l).data = 'S' :: 'S' :: '-' :: l := rfl

theorem orderIdOf_matches (u : Nat) : matchesOrderIdPattern (orderIdOf u) := by
  refine ⟨((uuidHex u).take 8).map Char.toUpper, data_SS_append _, ?_, ?_⟩
  · simp [uuidHex]
  · intro c hc
    obtain ⟨c0, hc0, rfl⟩ := List.mem_map.mp hc
    have hmem : c0 ∈ uuidHex u := List.mem_of_mem_take hc0
    obtain ⟨i, _, rfl⟩ := List.mem_map.mp hmem
    exact hexChar_toUpper_isUpperHex _ (Nat.mod_lt _ (by norm_num))

/-- Claim C1: for every plan code that is a key of the plan catalog,
`generate_order` succeeds, its identifier matches `SS-[0-9A-F]{8}`, and the
document it appends to the store has `fulfilled = false` and no
`fulfilledAt` field. -/
theorem generate_order_valid_plan (store : List Doc) (plan : String) (info : PlanInfo)
    (u now : Nat) (h : PLAN_DETAILS plan = some info) :
    ∃ resp : OrderResponse, ∃ d : Doc,
      generate_order store plan u now = (Except.ok resp, store ++ [d]) ∧
      d.order.orderId = resp.orderId ∧
      matchesOrderIdPattern resp.orderId ∧
      d.order.fulfilled = false ∧
      d.order.fulfilledAt = none := by
  refine ⟨⟨orderIdOf u, plan, info.price, now, "+1234567890"⟩,
    ⟨store.length, ⟨orderIdOf u, plan, info.name, info.price, info.description, info.delivery,
      info.features, now, "payment_confirmed", "+1234567890", false, none⟩⟩,
    ?_, rfl, orderIdOf_matches u, rfl, rfl⟩
  simp [generate_order, h, insert_one]

/-- Witness for C1: creating an order with the valid plan `"snap"`. -/
theorem generate_order_valid_plan_witness :
    ∃ resp : OrderResponse, ∃ d : Doc,
      generate_order [] "snap" 0 0 = (Except.ok resp, [] ++ [d]) ∧
      d.order.orderId = resp.orderId ∧
      matchesOrderIdPattern resp.orderId ∧
      d.order.fulfilled = false ∧
      d.order.fulfilledAt = none :=
  generate_order_valid_plan [] "snap"
    ⟨"Snap", "$3.99", "1 full-length custom song with cover art", "2 hours",
      ["1 custom song", "Simple cover art", "2-hour delivery", "No edits"]⟩
    0 0 (by decide)

/-- Claim C2: for every string that is not a key of the plan catalog,
`generate_order` fails with HTTP 400 "Invalid plan type" and leaves the
store exactly as it was: no record is constructed or written. -/
theorem generate_order_invalid_plan (store : List Doc) (plan : String) (u now : Nat)
    (h : PLAN_DETAILS plan = none) :
    generate_order store plan u now = (Except.error ⟨400, "Invalid plan type"⟩, store) := by
  simp [generate_order, h]

/-- Witness for C2: the empty string is not a plan code and is rejected. -/
theorem generate_order_invalid_plan_witness :
    PLAN_DETAILS "" = none ∧
    generate_order [sampleDoc] "" 0 0 =
      (Except.error ⟨400, "Invalid plan type"⟩, [sampleDoc]) :=
  ⟨by decide, generate_order_invalid_plan [sampleDoc] "" 0 0 (by decide)⟩

theorem updateFirst_of_any_eq_false (p : Doc → Bool) (f : Doc → Doc) :
    ∀ l : List Doc, l.any p = false → updateFirst p f l = l := by
  intro l h
  induction l with
  | nil => rfl
  | cons a as ih =>
    simp only [List.any_cons, Bool.or_eq_false_iff] at h
    simp [updateFirst, h.1, ih h.2]

theorem updateFirst_find? (p : Doc → Bool) (f : Doc → Doc) (hpf : ∀ d, p (f d) = p d) :
    ∀ (l : List Doc) (d : Doc), l.find? p = some d →
      (updateFirst p f l).find? p = some (f d) := by
  intro l
  induction l with
  | nil => intro d h; simp [List.find?] at h
  | cons a as ih =>
    intro d h
    by_cases hp : p a = true
    · rw [List.find?_cons_of_pos _ hp] at h
      cases h
      simp [updateFirst, hp, List.find?_cons_of_pos _ ((hpf a).trans hp)]
    · rw [List.find?_cons_of_neg _ (by simpa using hp)] at h
      simp only [updateFirst, if_neg hp]
      rw [List.find?_cons_of_neg _ (by simpa using hp)]
      exact ih d h

theorem updateFirst_any (p : Doc → Bool) (f : Doc → Doc) (hpf : ∀ d, p (f d) = p d) :
    ∀ l : List Doc, (updateFirst p f l).any p = l.any p := by
  intro l
  induction l with
  | nil => rfl
  | cons a as ih =>
    by_cases hp : p a = true
    · simp [updateFirst, hp, hpf]
    · simp only [updateFirst, if_neg hp, List.any_cons, ih]

theorem any_eq_true_of_find? (p : Doc → Bool) (l : List Doc) (d : Doc)
    (h : l.find? p = some d) : l.any p = true := by
  have hd := List.find?_some h
  have hmem := List.mem_of_find?_eq_some h
  exact List.any_eq_true.mpr ⟨d, hmem, hd⟩

theorem setFulfilled_preserves_match (id : String) (now : Nat) :
    ∀ d : Doc, ((setFulfilled now d).order.orderId == id) = (d.order.orderId == id) :=
  fun _ => rfl

/-- Claim C3: `fulfill_order` is idempotent: on an existing order both the
first and the second call succeed without error, and afterwards the order has
`fulfilled = true` with `fulfilledAt` overwritten by the second call's time. -/
theorem fulfill_order_idempotent (store : List Doc) (id : String) (t1 t2 : Nat)
    (h : (find_one store id).isSome = true) :
    ∃ r1 : FulfillResponse, ∃ s1 : List Doc,
      fulfill_order store id t1 = (Except.ok r1, s1) ∧
      ∃ r2 : FulfillResponse, ∃ s2 : List Doc,
        fulfill_order s1 id t2 = (Except.ok r2, s2) ∧
        ∃ d : Doc, find_one s2 id = some d ∧
          d.order.fulfilled = true ∧ d.order.fulfilledAt = some t2 := by
  obtain ⟨d0, hd0⟩ := Option.isSome_iff_exists.mp h
  have hany1 : store.any (fun d => d.order.orderId == id) = true :=
    any_eq_true_of_find? _ _ _ hd0
  refine ⟨⟨"Order fulfilled successfully", id⟩,
    updateFirst (fun d => d.order.orderId == id) (setFulfilled t1) store, ?_, ?_⟩
  · simp [fulfill_order, matchedCount, hany1]
  · have hfind1 := updateFirst_find? _ (setFulfilled t1)
      (setFulfilled_preserves_match id t1) store d0 hd0
    have hany2 : (updateFirst (fun d => d.order.orderId == id) (setFulfilled t1) store).any
        (fun d => d.order.orderId == id) = true := by
      rw [updateFirst_any _ _ (setFulfilled_preserves_match id t1)]
      exact hany1
    refine ⟨⟨"Order fulfilled successfully", id⟩,
      updateFirst (fun d => d.order.orderId == id) (setFulfilled t2)
        (updateFirst (fun d => d.order.orderId == id) (setFulfilled t1) store), ?_, ?_⟩
    · simp [fulfill_order, matchedCount, hany2]
    · refine ⟨setFulfilled t2 (setFulfilled t1 d0), ?_, rfl, rfl⟩
      exact updateFirst_find? _ (setFulfilled t2)
        (setFulfilled_preserves_match id t2) _ _ hfind1

/-- Witness for C3: double fulfillment of the sample order. -/
theorem fulfill_order_idempotent_witness :
    ∃ r1 : FulfillResponse, ∃ s1 : List Doc,
      fulfill_order [sampleDoc] "SS-0A1B2C3D" 3 = (Except.ok r1, s1) ∧
      ∃ r2 : FulfillResponse, ∃ s2 : List Doc,
        fulfill_order s1 "SS-0A1B2C3D" 9 = (Except.ok r2, s2) ∧
        ∃ d : Doc, find_one s2 "SS-0A1B2C3D" = some d ∧
          d.order.fulfilled = true ∧ d.order.fulfilledAt = some 9 :=
  fulfill_order_idempotent [sampleDoc] "SS-0A1B2C3D" 3 9 (by decide)

/-- Claim C4: when no stored record has the requested identifier, the
reported match count is zero, `fulfill_order` fails with HTTP 404
"Order not found", and the store is completely unchanged. -/
theorem fulfill_order_notfound (store : List Doc) (id : String) (now : Nat)
    (h : store.any (fun d => d.order.orderId == id) = false) :
    matchedCount store id = 0 ∧
    fulfill_order store id now = (Except.error ⟨404, "Order not found"⟩, store) := by
  have hm : matchedCount store id = 0 := by simp [matchedCount, h]
  refine ⟨hm, ?_⟩
  simp [fulfill_order, hm, updateFirst_of_any_eq_false _ _ store h]

/-- Witness for C4: fulfilling an identifier absent from a one-order store. -/
theorem fulfill_order_notfound_witness :
    matchedCount [sampleDoc] "SS-DEADBEEF" = 0 ∧
    fulfill_order [sampleDoc] "SS-DEADBEEF" 5 =
      (Except.error ⟨404, "Order not found"⟩, [sampleDoc]) :=
  fulfill_order_notfound [sampleDoc] "SS-DEADBEEF" 5 (by decide)

theorem filter_matchesQuery_none_none (s : List Doc) :
    s.filter (matchesQuery none none) = s := by
  induction s with
  | nil => rfl
  | cons a as ih => simp [List.filter_cons, matchesQuery, ih]

theorem length_sortTimestampDesc (s : List Doc) :
    (sortTimestampDesc s).length = s.length :=
  (List.perm_insertionSort tsDesc s).length_eq

/-- Claim C5: `get_orders` sorts by timestamp descending and truncates to the
limit; the default limit is 50 and no upper bound is enforced; with
`limit = 2` on a store of at least three orders it returns exactly the two
most recent ones. -/
theorem get_orders_limit_two_most_recent (store : List Doc) (h : 3 ≤ store.length) :
    ∃ rest : List Order,
      ((get_orders store 2 none none).orders).length = 2 ∧
      List.Perm ((get_orders store 2 none none).orders ++ rest)
        (store.map (fun d => d.order)) ∧
      List.Sorted (fun a b : Order => b.timestamp ≤ a.timestamp)
        ((get_orders store 2 none none).orders) ∧
      (∀ o ∈ (get_orders store 2 none none).orders, ∀ q ∈ rest, q.timestamp ≤ o.timestamp) ∧
      (∀ s : List Doc, get_ordersDefault s = get_orders s 50 none none) ∧
      (∀ (s : List Doc) (n : Nat), 0 < n →
        ((get_orders s n none none).orders).length = min n s.length) := by
  have hsorted : List.Sorted tsDesc (sortTimestampDesc store) :=
    List.sorted_insertionSort tsDesc store
  have hlen : (sortTimestampDesc store).length = store.length := length_sortTimestampDesc store
  have horders : (get_orders store 2 none none).orders =
      ((sortTimestampDesc store).take 2).map (fun d => d.order) := by
    simp [get_orders, mongoLimit, filter_matchesQuery_none_none]
  refine ⟨((sortTimestampDesc store).drop 2).map (fun d => d.order), ?_, ?_, ?_, ?_, fun _ => rfl, ?_⟩
  · rw [horders, List.length_map, List.length_take, hlen]
    omega
  · rw [horders, ← List.map_append, List.take_append_drop]
    exact (List.perm_insertionSort tsDesc store).map (fun d => d.order)
  · rw [horders]
    exact ((List.Pairwise.sublist (List.take_sublist 2 _) hsorted).map _ (fun a b hab => hab))
  · intro o ho q hq
    rw [horders] at ho
    obtain ⟨a, ha, rfl⟩ := List.mem_map.mp ho
    obtain ⟨b, hb, rfl⟩ := List.mem_map.mp hq
    have hpair : List.Pairwise tsDesc
        ((sortTimestampDesc store).take 2 ++ (sortTimestampDesc store).drop 2) := by
      rw [List.take_append_drop]; exact hsorted
    exact (List.pairwise_append.mp hpair).2.2 a ha b hb
  · intro s n hn
    have hne : ¬ n = 0 := Nat.pos_iff_ne_zero.mp hn
    simp [get_orders, mongoLimit, hne, filter_matchesQuery_none_none,
      length_sortTimestampDesc]

/-- Witness for C5: a three-order store queried with limit 2. -/
theorem get_orders_limit_two_most_recent_witness :
    ∃ rest : List Order,
      ((get_orders sampleStore3 2 none none).orders).length = 2 ∧
      List.Perm ((get_orders sampleStore3 2 none none).orders ++ rest)
        (sampleStore3.map (fun d => d.order)) ∧
      List.Sorted (fun a b : Order => b.timestamp ≤ a.timestamp)
        ((get_orders sampleStore3 2 none none).orders) ∧
      (∀ o ∈ (get_orders sampleStore3 2 none none).orders,
        ∀ q ∈ rest, q.timestamp ≤ o.timestamp) ∧
      (∀ s : List Doc, get_ordersDefault s = get_orders s 50 none none) ∧
      (∀ (s : List Doc) (n : Nat), 0 < n →
        ((get_orders s n none none).orders).length = min n s.length) :=
  get_orders_limit_two_most_recent sampleStore3 (by decide)

theorem matchesQuery_eq_true_iff (f : Option Bool) (p : Option String) (d : Doc) :
    matchesQuery f p d = true ↔
      (∀ b, f = some b → d.order.fulfilled = b) ∧
      (∀ s, p = some s → d.order.plan = s) := by
  cases f <;> cases p <;> simp [matchesQuery]

/-- Claim C6: provided the limit does not truncate (it is 0 or at least the
store size), `get_orders` returns exactly the orders satisfying the
conjunction of the supplied filters; an absent filter imposes no
constraint. -/
theorem get_orders_filter_conjunction (store : List Doc) (n : Nat) (f : Option Bool)
    (p : Option String) (hn : n = 0 ∨ store.length ≤ n) (o : Order) :
    o ∈ (get_orders store n f p).orders ↔
      ∃ d : Doc, d ∈ store ∧ d.order = o ∧
        (∀ b, f = some b → o.fulfilled = b) ∧
        (∀ s, p = some s → o.plan = s) := by
  have hlen : (sortTimestampDesc (store.filter (matchesQuery f p))).length ≤ store.length := by
    rw [length_sortTimestampDesc]
    exact Nat.le_trans (List.length_filter_le _ _) (Nat.le_refl _)
  have hlimit : mongoLimit n (sortTimestampDesc (store.filter (matchesQuery f p))) =
      sortTimestampDesc (store.filter (matchesQuery f p)) := by
    rcases hn with hn | hn
    · simp [mongoLimit, hn]
    · by_cases h0 : n = 0
      · simp [mongoLimit, h0]
      · simp [mongoLimit, h0, List.take_of_length_le (Nat.le_trans hlen hn)]
  constructor
  · intro ho
    rw [show (get_orders store n f p).orders =
        (mongoLimit n (sortTimestampDesc (store.filter (matchesQuery f p)))).map
          (fun d => d.order) from rfl, hlimit] at ho
    obtain ⟨d, hd, rfl⟩ := List.mem_map.mp ho
    have hd2 : d ∈ store.filter (matchesQuery f p) := (List.mem_insertionSort tsDesc).mp hd
    have hd3 := List.mem_filter.mp hd2
    obtain ⟨h1, h2⟩ := (matchesQuery_eq_true_iff f p d).mp hd3.2
    exact ⟨d, hd3.1, rfl, h1, h2⟩
  · rintro ⟨d, hd, rfl, h1, h2⟩
    rw [show (get_orders store n f p).orders =
        (mongoLimit n (sortTimestampDesc (store.filter (matchesQuery f p)))).map
          (fun d => d.order) from rfl, hlimit]
    refine List.mem_map.mpr ⟨d, ?_, rfl⟩
    exact (List.mem_insertionSort tsDesc).mpr
      (List.mem_filter.mpr ⟨hd, (matchesQuery_eq_true_iff f p d).mpr ⟨h1, h2⟩⟩)

/-- Witness for C6: both filters supplied on a two-order store. -/
theorem get_orders_filter_conjunction_witness :
    { sampleOrder with fulfilled := true } ∈
      (get_orders sampleStore2 50 (some true) (some "snap")).orders ↔
      ∃ d : Doc, d ∈ sampleStore2 ∧
        d.order = { sampleOrder with fulfilled := true } ∧
        (∀ b, (some true : Option Bool) = some b →
          ({ sampleOrder with fulfilled := true } : Order).fulfilled = b) ∧
        (∀ s, (some "snap" : Option String) = some s →
          ({ sampleOrder with fulfilled := true } : Order).plan = s) :=
  get_orders_filter_conjunction sampleStore2
    50 (some true) (some "snap") (Or.inr (by decide))
    { sampleOrder with fulfilled := true }

/-- Claim C10: `get_orders` with `limit = 0` does not return an empty result:
the underlying store treats a zero limit as "no limit", so every order
matching the filters is returned; in particular on a nonempty unfiltered
store the result is nonempty. -/
theorem get_orders_limit_zero (store : List Doc) (f : Option Bool) (p : Option String) :
    ((get_orders store 0 f p).orders).length = (store.filter (matchesQuery f p)).length ∧
    (∀ o : Order, o ∈ (get_orders store 0 f p).orders ↔
      ∃ d : Doc, d ∈ store ∧ matchesQuery f p d = true ∧ d.order = o) ∧
    (store ≠ [] → (get_orders store 0 none none).orders ≠ []) := by
  refine ⟨?_, ?_, ?_⟩
  · simp [get_orders, mongoLimit, length_sortTimestampDesc]
  · intro o
    constructor
    · intro ho
      simp only [get_orders, mongoLimit, if_pos rfl] at ho
      obtain ⟨d, hd, rfl⟩ := List.mem_map.mp ho
      have hd2 := List.mem_filter.mp ((List.mem_insertionSort tsDesc).mp hd)
      exact ⟨d, hd2.1, hd2.2, rfl⟩
    · rintro ⟨d, hd, hq, rfl⟩
      simp only [get_orders, mongoLimit, if_pos rfl]
      exact List.mem_map.mpr
        ⟨d, (List.mem_insertionSort tsDesc).mpr (List.mem_filter.mpr ⟨hd, hq⟩), rfl⟩
  · intro hne
    have : ((get_orders store 0 none none).orders).length =
        (store.filter (matchesQuery none none)).length := by
      simp [get_orders, mongoLimit, length_sortTimestampDesc]
    rw [filter_matchesQuery_none_none] at this
    intro hempty
    rw [hempty] at this
    exact hne (List.length_eq_zero.mp this.symm)

/-- Witness for C10: a one-order store queried with limit 0 yields a
nonempty result. -/
theorem get_orders_limit_zero_witness :
    (get_orders [sampleDoc] 0 none none).orders ≠ [] :=
  (get_orders_limit_zero [sampleDoc] none none).2.2 (by decide)

theorem countP_plan_split (l : List Doc) :
    l.countP (fun d => d.order.plan == "snap") +
      l.countP (fun d => d.order.plan == "snappack") +
      l.countP (fun d => d.order.plan == "creator") =
    l.countP (fun d =>
      d.order.plan == "snap" || d.order.plan == "snappack" || d.order.plan == "creator") := by
  induction l with
  | nil => rfl
  | cons a as ih =>
    simp only [List.countP_cons]
    by_cases h1 : a.order.plan = "snap"
    · have e1 : (a.order.plan == "snap") = true := by rw [h1]; decide
      have e2 : (a.order.plan == "snappack") = false := by rw [h1]; decide
      have e3 : (a.order.plan == "creator") = false := by rw [h1]; decide
      simp only [e1, e2, e3, Bool.true_or, if_pos, if_neg, Bool.false_eq_true,
        if_false, ite_true, ite_false]
      omega
    · have e1 : (a.order.plan == "snap") = false := by
        simpa using h1
      by_cases h2 : a.order.plan = "snappack"
      · have e2 : (a.order.plan == "snappack") = true := by rw [h2]; decide
        have e3 : (a.order.plan == "creator") = false := by rw [h2]; decide
        simp only [e1, e2, e3, Bool.false_or, Bool.true_or, ite_true, ite_false,
          Bool.false_eq_true, if_false]
        omega
      · have e2 : (a.order.plan == "snappack") = false := by simpa using h2
        by_cases h3 : a.order.plan = "creator"
        · have e3 : (a.order.plan == "creator") = true := by rw [h3]; decide
          simp only [e1, e2, e3, Bool.false_or, ite_true, ite_false,
            Bool.false_eq_true, if_false]
          omega
        · have e3 : (a.order.plan == "creator") = false := by simpa using h3
          simp only [e1, e2, e3, Bool.false_or, ite_true, ite_false,
            Bool.false_eq_true, if_false]
          omega

/-- Claim C7: `get_stats` reports `pendingOrders = totalOrders - fulfilledOrders`,
and the three per-plan breakdown counts sum to at most `totalOrders`, with
equality exactly when every stored order uses one of the three known plan
codes. -/
theorem get_stats_spec (store : List Doc) :
    (get_stats store).pendingOrders =
      (get_stats store).totalOrders - (get_stats store).fulfilledOrders ∧
    (get_stats store).planBreakdown.snap + (get_stats store).planBreakdown.snappack +
      (get_stats store).planBreakdown.creator ≤ (get_stats store).totalOrders ∧
    ((get_stats store).planBreakdown.snap + (get_stats store).planBreakdown.snappack +
        (get_stats store).planBreakdown.creator = (get_stats store).totalOrders ↔
      ∀ d ∈ store, d.order.plan = "snap" ∨ d.order.plan = "snappack" ∨
        d.order.plan = "creator") := by
  have htotal : (get_stats store).totalOrders = store.length := by
    simp [get_stats, count_documents]
  refine ⟨rfl, ?_, ?_⟩
  · show store.countP (fun d => d.order.plan == "snap") +
      store.countP (fun d => d.order.plan == "snappack") +
      store.countP (fun d => d.order.plan == "creator") ≤ (get_stats store).totalOrders
    rw [countP_plan_split, htotal]
    exact List.countP_le_length _
  · show store.countP (fun d => d.order.plan == "snap") +
      store.countP (fun d => d.order.plan == "snappack") +
      store.countP (fun d => d.order.plan == "creator") = (get_stats store).totalOrders ↔ _
    rw [countP_plan_split, htotal, List.countP_eq_length]
    constructor
    · intro h d hd
      have hb := h d hd
      simp only [Bool.or_eq_true, beq_iff_eq] at hb
      exact or_assoc.mp hb
    · intro h d hd
      simp only [Bool.or_eq_true, beq_iff_eq]
      exact or_assoc.mpr (h d hd)

/-- Claim C8: `get_order` returns the full stored record with only the
storage-internal identifier removed and every other field unmodified, and
fails with HTTP 404 when no record matches; the record returned for a
freshly created order is the exact catalog snapshot taken at creation time
(`get_order` never consults the plan catalog). -/
theorem get_order_spec :
    (∀ (store : List Doc) (id : String) (d : Doc),
      find_one store id = some d → get_order store id = Except.ok d.order) ∧
    (∀ (store : List Doc) (id : String),
      find_one store id = none →
        get_order store id = Except.error ⟨404, "Order not found"⟩) ∧
    (∀ (store : List Doc) (plan : String) (info : PlanInfo) (u now : Nat),
      PLAN_DETAILS plan = some info →
      (∀ d ∈ store, d.order.orderId ≠ orderIdOf u) →
      get_order (generate_order store plan u now).2 (orderIdOf u) =
        Except.ok ⟨orderIdOf u, plan, info.name, info.price, info.description,
          info.delivery, info.features, now, "payment_confirmed", "+1234567890",
          false, none⟩) := by
  refine ⟨?_, ?_, ?_⟩
  · intro store id d h
    simp [get_order, h]
  · intro store id h
    simp [get_order, h]
  · intro store plan info u now hplan hfresh
    have hstore : (generate_order store plan u now).2 =
        store ++ [⟨store.length, ⟨orderIdOf u, plan, info.name, info.price,
          info.description, info.delivery, info.features, now, "payment_confirmed",
          "+1234567890", false, none⟩⟩] := by
      simp [generate_order, hplan, insert_one]
    have hnone : store.find? (fun d => d.order.orderId == orderIdOf u) = none :=
      List.find?_eq_none.mpr (fun d hd => by
        simpa using hfresh d hd)
    rw [hstore]
    simp [get_order, find_one, List.find?_append, hnone, List.find?_cons]

/-- Witness for C8: reading back an order created in an empty store. -/
theorem get_order_spec_witness :
    get_order (generate_order [] "snap" 0 0).2 (orderIdOf 0) =
      Except.ok ⟨orderIdOf 0, "snap", "Snap", "$3.99",
        "1 full-length custom song with cover art", "2 hours",
        ["1 custom song", "Simple cover art", "2-hour delivery", "No edits"],
        0, "payment_confirmed", "+1234567890", false, none⟩ :=
  get_order_spec.2.2 [] "snap"
    ⟨"Snap", "$3.99", "1 full-length custom song with cover art", "2 hours",
      ["1 custom song", "Simple cover art", "2-hour delivery", "No edits"]⟩
    0 0 (by decide) (fun d hd => by simp at hd)

theorem updateFirst_length (p : Doc → Bool) (f : Doc → Doc) :
    ∀ l : List Doc, (updateFirst p f l).length = l.length := by
  intro l
  induction l with
  | nil => rfl
  | cons a as ih =>
    by_cases hp : p a = true
    · simp [updateFirst, hp]
    · simp [updateFirst, hp, ih]

theorem updateFirst_first_match (p : Doc → Bool) (f : Doc → Doc) :
    ∀ (l : List Doc) (j : Nat) (dj : Doc),
      l.get? j = some dj → p dj = true →
      (∀ (k : Nat) (dk : Doc), k < j → l.get? k = some dk → p dk = false) →
      (updateFirst p f l).get? j = some (f dj) ∧
      ∀ i : Nat, i ≠ j → (updateFirst p f l).get? i = l.get? i := by
  intro l
  induction l with
  | nil => intro j dj hj _ _; simp at hj
  | cons a as ih =>
    intro j dj hj hp hfirst
    by_cases hpa : p a = true
    · cases j with
      | zero =>
          simp only [List.get?_cons_zero, Option.some_inj] at hj
          subst hj
          refine ⟨by simp [updateFirst, hpa], ?_⟩
          intro i hi
          cases i with
          | zero => exact absurd rfl hi
          | succ n => simp [updateFirst, hpa]
      | succ m =>
          have hcontra := hfirst 0 a (Nat.succ_pos m) rfl
          rw [hpa] at hcontra
          exact Bool.noConfusion hcontra
    · cases j with
      | zero =>
          simp only [List.get?_cons_zero, Option.some_inj] at hj
          subst hj
          exact absurd hp hpa
      | succ m =>
          have hj2 : as.get? m = some dj := by simpa using hj
          have hfirst2 : ∀ (k : Nat) (dk : Doc), k < m → as.get? k = some dk → p dk = false := by
            intro k dk hk hget
            exact hfirst (k + 1) dk (Nat.succ_lt_succ hk) (by simpa using hget)
          obtain ⟨h1, h2⟩ := ih m dj hj2 hp hfirst2
          refine ⟨by simpa [updateFirst, hpa] using h1, ?_⟩
          intro i hi
          cases i with
          | zero => simp [updateFirst, hpa]
          | succ n =>
              have hn : n ≠ m := fun hnm => hi (by rw [hnm])
              simpa [updateFirst, hpa] using h2 n hn

theorem fulfill_order_store_eq (store : List Doc) (id : String) (now : Nat) :
    (fulfill_order store id now).2 =
      updateFirst (fun d => d.order.orderId == id) (setFulfilled now) store := by
  by_cases h : matchedCount store id = 0 <;> simp [fulfill_order, h]

theorem sameCore_setFulfilled (now : Nat) (d : Doc) :
    sameCore (setFulfilled now d).order d.order :=
  ⟨rfl, rfl, rfl, rfl, rfl, rfl, rfl, rfl, rfl, rfl⟩

/-- Claim C9: `fulfill_order` modifies only the `fulfilled` and `fulfilledAt`
fields of the matched record: the store keeps its length; when no record
matches, the store is returned verbatim; when `j` is the first matching
position, the document there becomes exactly its `$set`-image (same `_id`,
same position, every field other than `fulfilled`/`fulfilledAt` — including
`timestamp` — unchanged) and every other position holds exactly the document
it held before; and no exposed operation deletes a record —
`generate_order` only ever appends. -/
theorem fulfill_order_frame (store : List Doc) (id : String) (now : Nat) :
    ((fulfill_order store id now).2).length = store.length ∧
    ((∀ d ∈ store, (d.order.orderId == id) = false) →
      (fulfill_order store id now).2 = store) ∧
    (∀ (j : Nat) (dj : Doc), store.get? j = some dj →
      (dj.order.orderId == id) = true →
      (∀ (k : Nat) (dk : Doc), k < j → store.get? k = some dk →
        (dk.order.orderId == id) = false) →
      ((fulfill_order store id now).2).get? j = some (setFulfilled now dj) ∧
      (setFulfilled now dj).mongoId = dj.mongoId ∧
      sameCore (setFulfilled now dj).order dj.order ∧
      ∀ i : Nat, i ≠ j → ((fulfill_order store id now).2).get? i = store.get? i) ∧
    (∀ (plan : String) (u tnow : Nat), ∃ added : List Doc,
      (generate_order store plan u tnow).2 = store ++ added) := by
  refine ⟨?_, ?_, ?_, ?_⟩
  · rw [fulfill_order_store_eq]
    exact updateFirst_length _ _ store
  · intro h
    have hany : store.any (fun d => d.order.orderId == id) = false := by
      cases hx : store.any (fun d => d.order.orderId == id) with
      | false => rfl
      | true =>
          obtain ⟨d, hd, hpd⟩ := List.any_eq_true.mp hx
          rw [h d hd] at hpd
          exact Bool.noConfusion hpd
    rw [fulfill_order_store_eq]
    exact updateFirst_of_any_eq_false _ _ store hany
  · intro j dj hj hp hfirst
    obtain ⟨h1, h2⟩ := updateFirst_first_match (fun d => d.order.orderId == id)
      (setFulfilled now) store j dj hj hp hfirst
    refine ⟨by rw [fulfill_order_store_eq]; exact h1, rfl,
      sameCore_setFulfilled now dj, ?_⟩
    intro i hi
    rw [fulfill_order_store_eq]
    exact h2 i hi
  · intro plan u tnow
    cases hplan : PLAN_DETAILS plan with
    | none => exact ⟨[], by simp [generate_order, hplan]⟩
    | some info =>
        exact ⟨[⟨store.length, ⟨orderIdOf u, plan, info.name, info.price,
          info.description, info.delivery, info.features, tnow, "payment_confirmed",
          "+1234567890", false, none⟩⟩], by simp [generate_order, hplan, insert_one]⟩

/-- Witness for C9: in a two-order store, fulfilling the first order rewrites
position 0 to exactly its `$set`-image and leaves position 1 untouched. -/
theorem fulfill_order_frame_witness :
    ((fulfill_order sampleStore2 "SS-0A1B2C3D" 4).2).get? 0 =
      some (setFulfilled 4 sampleDoc) ∧
    (setFulfilled 4 sampleDoc).mongoId = sampleDoc.mongoId ∧
    sameCore (setFulfilled 4 sampleDoc).order sampleDoc.order ∧
    ∀ i : Nat, i ≠ 0 →
      ((fulfill_order sampleStore2 "SS-0A1B2C3D" 4).2).get? i = sampleStore2.get? i :=
  (fulfill_order_frame sampleStore2 "SS-0A1B2C3D" 4).2.2.1 0 sampleDoc rfl (by decide)
    (fun k dk hk _ => absurd hk (Nat.not_lt_zero k))
